import Mathlib

/-!
Shallow embedding of the response-interpretation pipeline of the TV4/search-go
client (package `cmoresearch`, file `search.go`, data model in the package's
type file).  Go's `encoding/json` decoding of the concrete target structures is
embedded as explicit functions on a JSON value tree; Go errors are embedded as
an explicit error type.  `isJSONResponse` and `APIError` are declared in a
repository file that is not available, so they are modelled from the
specification where noted.
-/

set_option autoImplicit false

namespace SearchGo

/-- JSON value tree.  `num` carries an integer, which is enough for the
integer-typed fields (`total_hits`) the decoder extracts; objects are
association lists in source order, as delivered by the wire. -/
inductive Json where
  | null
  | bool (b : Bool)
  | num (n : Int)
  | str (s : String)
  | arr (elems : List Json)
  | obj (fields : List (String × Json))

/-- ASCII lower-casing of a character, as used by `encoding/json`'s
case-insensitive field-name matching. -/
def asciiLower (c : Char) : Char :=
  if 'A' ≤ c ∧ c ≤ 'Z' then Char.ofNat (c.toNat + 32) else c

/-- Case-insensitive (ASCII) equality of field names, mirroring
`encoding/json`'s fold when matching a JSON key against a struct field. -/
def eqFold (s t : String) : Bool :=
  s.toList.map asciiLower == t.toList.map asciiLower

/-- Field lookup in a JSON object as `encoding/json` performs it: keys are
processed in source order and each matching key assigns the field, so a later
duplicate key overwrites an earlier one. -/
def lookupField (fields : List (String × Json)) (name : String) : Option Json :=
  fields.foldl (fun acc kv => if eqFold kv.1 name then some kv.2 else acc) none

/-- Unmarshal a string-typed struct field: a JSON string yields its value, an
absent key or JSON `null` leaves the zero value `""`, and any other JSON value
is a structural type error (`encoding/json` `UnmarshalTypeError`). -/
def getStringField (fields : List (String × Json)) (name : String) :
    Except String String :=
  match lookupField fields name with
  | none => .ok ""
  | some .null => .ok ""
  | some (.str s) => .ok s
  | some _ => .error ("cannot unmarshal value into string field " ++ name)

/-- Unmarshal an int-typed struct field, with the same absence/null rules. -/
def getIntField (fields : List (String × Json)) (name : String) :
    Except String Int :=
  match lookupField fields name with
  | none => .ok 0
  | some .null => .ok 0
  | some (.num n) => .ok n
  | some _ => .error ("cannot unmarshal value into int field " ++ name)

/-- Series hit record (`Series` in the package's type file); the embedded
fields are the discriminator field `Type` (tag `json:"type"`) and the
identifier field `ID` (tag `json:"id"`) referenced by the observable
properties.  The source struct carries further inert data-holding fields
(titles, descriptions, images, genres, …) that no property reads. -/
structure Series where
  ID : String
  typ : String
  deriving DecidableEq, Repr

/-- Asset hit record (`Asset` in the package's type file); embedded fields are
the discriminator field `Type` (tag `json:"type"`) and `VideoID`
(tag `json:"video_id"`); the source struct's remaining fields are inert
data-holding fields that no property reads. -/
structure Asset where
  VideoID : String
  typ : String
  deriving DecidableEq, Repr

/-- Unmarshal of a `Series` value from a JSON element: a non-object,
non-null element is a structural error; `null` leaves the zero value. -/
def decodeSeries : Json → Except String Series
  | .obj fs => do
    let id ← getStringField fs "id"
    let ty ← getStringField fs "type"
    .ok ⟨id, ty⟩
  | .null => .ok ⟨"", ""⟩
  | _ => .error "cannot unmarshal value into Series"

/-- Unmarshal of an `Asset` value from a JSON element, with the same
structural rules. -/
def decodeAsset : Json → Except String Asset
  | .obj fs => do
    let vid ← getStringField fs "video_id"
    let ty ← getStringField fs "type"
    .ok ⟨vid, ty⟩
  | .null => .ok ⟨"", ""⟩
  | _ => .error "cannot unmarshal value into Asset"

/-- First pass of `makeResponse`'s hit loop: unmarshal the anonymous
`struct \x7b Type string \x7d` from the raw element, peeking only at the
discriminator (field name `Type`, matched case-insensitively since it carries
no tag). -/
def decodeTypeField : Json → Except String String
  | .obj fs => getStringField fs "Type"
  | .null => .ok ""
  | _ => .error "cannot unmarshal value into struct with field Type"

/-- Hit, the polymorphic search-hit type: holds either an `Asset` or a
`Series` (in the source an `interface\x7b\x7d` holding `*Asset` or
`*Series`). -/
inductive Hit where
  | asset (a : Asset)
  | series (s : Series)
  deriving DecidableEq, Repr

/-- APIError.  Modelled from the spec: the `APIError` struct is declared in a
repository file not available here; per the spec it is the typed
representation of a service-reported error with a `message` string field
(plus further raw fields no property reads). -/
structure APIError where
  message : String
  deriving DecidableEq, Repr

/-- Go `error` values produced by the pipeline: the package-level sentinels,
a decoded `*APIError`, `fmt.Errorf` results, and `encoding/json` errors. -/
inductive GoError where
  | typeMissing
  | contentTypeNotJSON
  | invalidBaseURL
  | apiError (e : APIError)
  | errorf (msg : String)
  | jsonError (msg : String)
  deriving DecidableEq, Repr

/-- Meta, the request/response metadata attached to every outcome
(`StatusCode`, `Header`, `RequestURL`); the header is a list of key/values
and the resolved URL a string. -/
structure Meta where
  statusCode : Nat
  header : List (String × List String)
  requestURL : String
  deriving DecidableEq, Repr

/-- Response, the result returned by `Search`: decoded total-hit count,
ordered hits, and metadata. -/
structure Response where
  totalHits : Int
  hits : List Hit
  meta : Meta
  deriving DecidableEq, Repr

/-- Unmarshal of the response envelope, the anonymous struct with fields
`TotalHits int \x60json:"total_hits"\x60` and
`Hits []json.RawMessage \x60json:"assets"\x60`; raw messages stay undecoded
JSON elements. -/
def decodeEnvelope : Option Json → Except String (Int × List Json)
  | none => .error "invalid JSON body"
  | some (.obj fs) => do
    let total ← getIntField fs "total_hits"
    match lookupField fs "assets" with
    | none => .ok (total, [])
    | some .null => .ok (total, [])
    | some (.arr elems) => .ok (total, elems)
    | some _ => .error "cannot unmarshal value into list of raw messages"
  | some .null => .ok (0, [])
  | some _ => .error "cannot unmarshal value into response envelope"

/-- Body of one iteration of `makeResponse`'s hit loop: peek the
discriminator, switch on it (`""` aborts with `ErrTypeMissing`, `"series"`
selects the `Series` shape, anything else the `Asset` shape). -/
def decodeOneHit (h : Json) : Except GoError Hit :=
  match decodeTypeField h with
  | .error e => .error (.jsonError e)
  | .ok t =>
    if t = "" then .error .typeMissing
    else if t = "series" then
      match decodeSeries h with
      | .error e => .error (.jsonError e)
      | .ok s => .ok (.series s)
    else
      match decodeAsset h with
      | .error e => .error (.jsonError e)
      | .ok a => .ok (.asset a)

/-- The hit loop of `makeResponse`: decode elements left to right,
accumulating hits in `acc` (the growing `response.Hits`); the first failure
aborts and returns the hits accumulated so far together with the error. -/
def decodeHits : List Json → List Hit → List Hit × Option GoError
  | [], acc => (acc, none)
  | h :: rest, acc =>
    match decodeOneHit h with
    | .error e => (acc, some e)
    | .ok hit => decodeHits rest (acc ++ [hit])

/-- makeResponse: decode the envelope from the body, then run the hit loop;
on any failure the partially-built response (metadata, decoded total count,
hits decoded so far) is returned together with the error. -/
def makeResponse (meta : Meta) (body : Option Json) : Response × Option GoError :=
  match decodeEnvelope body with
  | .error e => (⟨0, [], meta⟩, some (.jsonError e))
  | .ok (total, rawHits) =>
    let r := decodeHits rawHits []
    (⟨total, r.1, meta⟩, r.2)

/-- An HTTP response as `Search` sees it after the transport call: status
code, header, and the body, abstracted as `some` parsed JSON tree or `none`
when the bytes are not valid JSON. -/
structure HTTPResponse where
  statusCode : Nat
  header : List (String × List String)
  body : Option Json

/-- First value of a header key, or `none` when the key is absent or has no
values (`http.Header.Get`). -/
def headerGet (header : List (String × List String)) (key : String) :
    Option String :=
  match header.find? (fun kv => kv.1 == key) with
  | none => none
  | some (_, []) => none
  | some (_, v :: _) => some v

/-- Whitespace characters stripped from a media-type token. -/
def isWS (c : Char) : Bool :=
  c == ' ' || c == '\t' || c == '\n' || c == '\r'

/-- Media-type token of a content-type value: the text before the first
`;` (parameters such as charset are dropped), stripped of surrounding
whitespace. -/
def mediaToken (ct : String) : String :=
  ⟨(((ct.toList.takeWhile (fun c => c ≠ ';')).dropWhile isWS).reverse.dropWhile
      isWS).reverse⟩

/-- Classification of one content-type value: JSON exactly when the
media-type token equals `application/json` case-sensitively. -/
def isJSONContentType (ct : String) : Bool :=
  mediaToken ct == "application/json"

/-- isJSONResponse.  Modelled from the spec: the function is declared in a
repository file not available here (only its test vectors survive in
`search_test.go`); per the spec a response is JSON when its content-type
value, ignoring surrounding whitespace and parameters after `;`, equals
`application/json` case-sensitively, and absence of a content-type value is
not JSON. -/
def isJSONResponse (resp : HTTPResponse) : Bool :=
  match headerGet resp.header "Content-Type" with
  | none => false
  | some ct => isJSONContentType ct

/-- Standard reason phrases (`http.StatusText`), restricted to common codes;
unknown codes map to the empty string as in the Go standard library. -/
def statusText : Nat → String
  | 200 => "OK"
  | 201 => "Created"
  | 204 => "No Content"
  | 301 => "Moved Permanently"
  | 302 => "Found"
  | 304 => "Not Modified"
  | 400 => "Bad Request"
  | 401 => "Unauthorized"
  | 403 => "Forbidden"
  | 404 => "Not Found"
  | 405 => "Method Not Allowed"
  | 409 => "Conflict"
  | 410 => "Gone"
  | 429 => "Too Many Requests"
  | 500 => "Internal Server Error"
  | 502 => "Bad Gateway"
  | 503 => "Service Unavailable"
  | 504 => "Gateway Timeout"
  | _ => ""

/-- Unmarshal of an `APIError` from the body: a parse failure or a
non-object, non-null document is an error; the `message` field follows the
string-field rules. -/
def decodeAPIError : Option Json → Except String APIError
  | none => .error "invalid JSON body"
  | some (.obj fs) => do
    let msg ← getStringField fs "message"
    .ok ⟨msg⟩
  | some .null => .ok ⟨""⟩
  | some _ => .error "cannot unmarshal value into APIError"

/-- Metadata `Search` builds from the request URL and the response. -/
def metaOf (reqURL : String) (resp : HTTPResponse) : Meta :=
  ⟨resp.statusCode, resp.header, reqURL⟩

/-- The response-interpretation part of `Search` (everything after the
transport call): classify by status and content type, decode either an
`APIError` or the success payload, and always attach the metadata.  On a
non-200 status a non-JSON content type yields the generic
`fmt.Errorf("%d %s", code, http.StatusText(code))` error, a JSON content
type decodes the body into an `APIError` (a malformed body yields the
`"; JSON response body malformed (…)"` error instead); on status 200 a
non-JSON content type yields `ErrContentTypeNotJSON`, and otherwise
`makeResponse` runs — but on its failure `Search` returns
`Response\x7bMeta: meta\x7d`, not the partial response. -/
def searchRespond (reqURL : String) (resp : HTTPResponse) :
    Response × Option GoError :=
  let meta := metaOf reqURL resp
  if resp.statusCode ≠ 200 then
    if ¬ isJSONResponse resp then
      (⟨0, [], meta⟩,
        some (.errorf (toString resp.statusCode ++ " " ++
          statusText resp.statusCode)))
    else
      match decodeAPIError resp.body with
      | .error e =>
        (⟨0, [], meta⟩,
          some (.errorf (toString resp.statusCode ++ " " ++
            statusText resp.statusCode ++
            "; JSON response body malformed (" ++ e ++ ")")))
      | .ok ae => (⟨0, [], meta⟩, some (.apiError ae))
  else if ¬ isJSONResponse resp then
    (⟨0, [], meta⟩, some .contentTypeNotJSON)
  else
    match makeResponse meta resp.body with
    | (_, some e) => (⟨0, [], meta⟩, some e)
    | (r, none) => (r, none)

/-- Query parameters (`url.Values`): keys mapped to lists of values. -/
abbrev Values : Type := List (String × List String)

/-- First list of values of a key (`url.Values` map lookup). -/
def Values.lookup (q : Values) (key : String) : Option (List String) :=
  match List.find? (fun kv => kv.1 == key) q with
  | none => none
  | some kv => some kv.2

/-- url.Values.Get: the first value associated with the key, or `""` when
the key is absent or has no values. -/
def Values.get (q : Values) (key : String) : String :=
  match Values.lookup q key with
  | none => ""
  | some [] => ""
  | some (v :: _) => v

/-- url.Values.Set: replace the key's values with the single given value
(map assignment); an absent key is added. -/
def Values.set (q : Values) (key v : String) : Values :=
  if List.any q (fun kv => kv.1 == key) then
    List.map (fun kv => if kv.1 == key then (kv.1, [v]) else kv) q
  else
    q ++ [(key, [v])]

/-- Go `strings.Split(s, ",")` on the underlying character list: split
around each comma; the result always has one more part than there are
commas, and the empty input yields one empty part. -/
def splitList : List Char → List (List Char)
  | [] => [[]]
  | c :: rest =>
    if c = ',' then [] :: splitList rest
    else
      match splitList rest with
      | [] => [[c]]
      | g :: gs => (c :: g) :: gs

/-- Go `strings.Split(s, ",")`. -/
def splitComma (s : String) : List String :=
  (splitList s.toList).map (fun l => ⟨l⟩)

/-- ensureCorrectFieldsParam: when a non-empty `fields` parameter is present
and none of its comma-separated entries equals `type`, append `,type` to it;
otherwise leave the query untouched. -/
def ensureCorrectFieldsParam (query : Values) : Values :=
  let fields := Values.get query "fields"
  if fields ≠ "" then
    if (splitComma fields).contains "type" then query
    else Values.set query "fields" (fields ++ ",type")
  else query

/-- The query-parameter transformation of `newSearchRequest` for a non-nil
query: normalize the `fields` parameter, then, when the client has a
non-empty application name, set the `client` parameter to it. -/
def newSearchRequestQuery (appName : String) (query : Values) : Values :=
  let q := ensureCorrectFieldsParam query
  if appName ≠ "" then Values.set q "client" appName else q

end SearchGo


namespace SearchGo

/-! Helper lemmas about the embedded operations. -/

/-- The body of a success response carrying a total-hit count and a raw hit
array, in the envelope shape `makeResponse` decodes. -/
def envelopeBody (total : Int) (raw : List Json) : Option Json :=
  some (.obj [("total_hits", .num total), ("assets", .arr raw)])

theorem decodeEnvelope_envelopeBody (total : Int) (raw : List Json) :
    decodeEnvelope (envelopeBody total raw) = .ok (total, raw) := rfl

theorem decodeHits_nil (acc : List Hit) : decodeHits [] acc = (acc, none) := rfl

theorem decodeHits_cons (h : Json) (rest : List Json) (acc : List Hit) :
    decodeHits (h :: rest) acc =
      match decodeOneHit h with
      | .error e => (acc, some e)
      | .ok hit => decodeHits rest (acc ++ [hit]) := rfl

theorem decodeHits_ok_prefix {pre : List Json} {preHits : List Hit}
    (h : List.Forall₂ (fun g hh => decodeOneHit g = Except.ok hh) pre preHits) :
    ∀ (rest : List Json) (acc : List Hit),
      decodeHits (pre ++ rest) acc = decodeHits rest (acc ++ preHits) := by
  induction h with
  | nil => intro rest acc; simp
  | cons hd _ ih =>
      intro rest acc
      rw [List.cons_append, decodeHits_cons]
      simp only [hd, ih, List.append_assoc, List.singleton_append]

theorem decodeHits_ok_forall₂ :
    ∀ (raw : List Json) (acc hits : List Hit),
      decodeHits raw acc = (hits, none) →
      ∃ tl, hits = acc ++ tl ∧
        List.Forall₂ (fun g hh => decodeOneHit g = Except.ok hh) raw tl := by
  intro raw
  induction raw with
  | nil =>
      intro acc hits h
      rw [decodeHits_nil, Prod.mk.injEq] at h
      exact ⟨[], by simp [h.1], List.Forall₂.nil⟩
  | cons g rest ih =>
      intro acc hits h
      rw [decodeHits_cons] at h
      cases hg : decodeOneHit g with
      | error e => rw [hg] at h; simp at h
      | ok hit =>
          rw [hg] at h
          obtain ⟨tl, htl, hf⟩ := ih (acc ++ [hit]) hits h
          exact ⟨hit :: tl, by simp [htl], List.Forall₂.cons hg hf⟩

theorem splitList_ne_nil (l : List Char) : splitList l ≠ [] := by
  induction l with
  | nil => simp [splitList]
  | cons c rest ih =>
      by_cases hc : c = ','
      · simp [splitList, hc]
      · simp only [splitList, if_neg hc]
        cases h : splitList rest <;> simp

theorem splitList_append_comma (l m : List Char) :
    splitList (l ++ ',' :: m) = splitList l ++ splitList m := by
  induction l with
  | nil => simp [splitList]
  | cons c rest ih =>
      by_cases hc : c = ','
      · simp only [List.cons_append, splitList, if_pos hc, List.append_eq, ih]
      · rw [List.cons_append]
        simp only [splitList, if_neg hc, List.append_eq, ih]
        cases h : splitList rest with
        | nil => exact absurd h (splitList_ne_nil rest)
        | cons g gs => simp

theorem splitComma_append_type (s : String) :
    splitComma (s ++ ",type") = splitComma s ++ ["type"] := by
  have hdata : (s ++ ",type").toList = s.toList ++ ',' :: "type".toList :=
    String.data_append s ",type"
  simp only [splitComma, hdata, splitList_append_comma, List.map_append]
  rfl

theorem values_lookup_cons (kv : String × List String) (rest : Values)
    (k : String) :
    Values.lookup (kv :: rest) k =
      if kv.1 = k then some kv.2 else Values.lookup rest k := by
  by_cases h : kv.1 = k <;> simp [Values.lookup, List.find?_cons, h]

theorem values_lookup_map_set_ne (q : Values) (key v k : String)
    (hk : k ≠ key) :
    Values.lookup
        (q.map (fun kv => if kv.1 == key then (kv.1, [v]) else kv)) k =
      Values.lookup q k := by
  induction q with
  | nil => rfl
  | cons kv rest ih =>
      rw [List.map_cons, values_lookup_cons, values_lookup_cons]
      have hfst : (if kv.1 == key then (kv.1, [v]) else kv).1 = kv.1 := by
        by_cases hkey : kv.1 = key <;> simp [hkey]
      rw [hfst]
      by_cases hkk : kv.1 = k
      · simp [hkk, hk]
      · rw [if_neg hkk, if_neg hkk, ih]

theorem values_lookup_map_set_self (q : Values) (key v : String)
    (h : List.any q (fun kv => kv.1 == key) = true) :
    Values.lookup
        (q.map (fun kv => if kv.1 == key then (kv.1, [v]) else kv)) key =
      some [v] := by
  induction q with
  | nil => simp at h
  | cons kv rest ih =>
      rw [List.map_cons, values_lookup_cons]
      by_cases hkey : kv.1 = key
      · rw [if_pos (by simp [hkey])]
        simp [hkey]
      · rw [if_neg (by simp [hkey])]
        refine ih ?_
        simpa [hkey] using h

theorem values_lookup_append_single_self (q : Values) (key v : String)
    (h : ¬ List.any q (fun kv => kv.1 == key) = true) :
    Values.lookup (q ++ [(key, [v])]) key = some [v] := by
  induction q with
  | nil =>
      rw [List.nil_append, values_lookup_cons]
      simp
  | cons kv rest ih =>
      simp only [List.any_cons, Bool.or_eq_true, beq_iff_eq, not_or] at h
      rw [List.cons_append, values_lookup_cons, if_neg h.1]
      exact ih (by simp [h.2])

theorem values_lookup_append_single_ne (q : Values) (key v k : String)
    (hk : k ≠ key) :
    Values.lookup (q ++ [(key, [v])]) k = Values.lookup q k := by
  induction q with
  | nil =>
      rw [List.nil_append, values_lookup_cons]
      simp [Ne.symm hk, Values.lookup, List.find?]
  | cons kv rest ih =>
      rw [List.cons_append, values_lookup_cons, values_lookup_cons]
      by_cases hkk : kv.1 = k
      · rw [if_pos hkk, if_pos hkk]
      · rw [if_neg hkk, if_neg hkk, ih]

theorem values_lookup_set_ne (q : Values) (key v k : String) (hk : k ≠ key) :
    Values.lookup (Values.set q key v) k = Values.lookup q k := by
  unfold Values.set
  by_cases h : List.any q (fun kv => kv.1 == key) = true
  · rw [if_pos h]; exact values_lookup_map_set_ne q key v k hk
  · rw [if_neg h]
    exact values_lookup_append_single_ne q key v k hk

theorem values_lookup_set_self (q : Values) (key v : String) :
    Values.lookup (Values.set q key v) key = some [v] := by
  unfold Values.set
  by_cases h : List.any q (fun kv => kv.1 == key) = true
  · rw [if_pos h]; exact values_lookup_map_set_self q key v h
  · rw [if_neg h]
    exact values_lookup_append_single_self q key v h

theorem values_get_set_self (q : Values) (key v : String) :
    Values.get (Values.set q key v) key = v := by
  unfold Values.get
  rw [values_lookup_set_self]

theorem ensureCorrectFieldsParam_lookup_ne (q : Values) (k : String)
    (hk : k ≠ "fields") :
    Values.lookup (ensureCorrectFieldsParam q) k = Values.lookup q k := by
  unfold ensureCorrectFieldsParam
  by_cases h1 : Values.get q "fields" ≠ ""
  · rw [if_pos h1]
    by_cases h2 : (splitComma (Values.get q "fields")).contains "type" = true
    · rw [if_pos h2]
    · rw [if_neg h2]
      exact values_lookup_set_ne q "fields" _ k hk
  · rw [if_neg h1]

end SearchGo

namespace SearchGo

/-- C4: for every response with status exactly 200 and a content-type that
does not denote JSON, `Search` returns the `ErrContentTypeNotJSON` sentinel
regardless of the body contents, with the response metadata attached. -/
theorem c4_content_type_sentinel (reqURL : String) (resp : HTTPResponse)
    (h200 : resp.statusCode = 200) (hjson : isJSONResponse resp = false) :
    searchRespond reqURL resp =
      (⟨0, [], metaOf reqURL resp⟩, some .contentTypeNotJSON) := by
  simp [searchRespond, h200, hjson]

/-- C4 witness: a 200 response with content-type `text/plain` and an
arbitrary body yields the sentinel. -/
theorem c4_witness :
    searchRespond "https://search.example/search"
        ⟨200, [("Content-Type", ["text/plain"])], some (.str "hello")⟩ =
      (⟨0, [],
          ⟨200, [("Content-Type", ["text/plain"])],
            "https://search.example/search"⟩⟩,
        some .contentTypeNotJSON) :=
  c4_content_type_sentinel "https://search.example/search"
    ⟨200, [("Content-Type", ["text/plain"])], some (.str "hello")⟩ rfl rfl

/-- C6: for every response with status not 200 and a non-JSON content-type,
`Search` returns a generic error whose text is exactly the numeric status
followed by a space and its standard reason phrase, without attempting to
parse the body. -/
theorem c6_opaque_error (reqURL : String) (resp : HTTPResponse)
    (hsc : resp.statusCode ≠ 200) (hjson : isJSONResponse resp = false) :
    searchRespond reqURL resp =
      (⟨0, [], metaOf reqURL resp⟩,
        some (.errorf (toString resp.statusCode ++ " " ++
          statusText resp.statusCode))) := by
  simp [searchRespond, hsc, hjson]

/-- C6 witness: a 500 response with no content-type and a non-JSON body
yields exactly the error text `500 Internal Server Error`. -/
theorem c6_witness :
    searchRespond "https://search.example/search"
        ⟨500, [], some (.str "oops")⟩ =
      (⟨0, [], ⟨500, [], "https://search.example/search"⟩⟩,
        some (.errorf "500 Internal Server Error")) :=
  c6_opaque_error "https://search.example/search"
    ⟨500, [], some (.str "oops")⟩ (by decide) rfl

/-- C5: for every response with status not 200 and a JSON content-type, the
body is decoded into an `APIError` returned as the error value with the
metadata attached; if the error body fails to decode, the returned error
embeds the original status, its reason phrase, and the parse failure. -/
theorem c5_structured_error (reqURL : String) (resp : HTTPResponse)
    (hsc : resp.statusCode ≠ 200) (hjson : isJSONResponse resp = true) :
    (∀ ae, decodeAPIError resp.body = .ok ae →
        searchRespond reqURL resp =
          (⟨0, [], metaOf reqURL resp⟩, some (.apiError ae)))
    ∧ (∀ e, decodeAPIError resp.body = .error e →
        searchRespond reqURL resp =
          (⟨0, [], metaOf reqURL resp⟩,
            some (.errorf (toString resp.statusCode ++ " " ++
              statusText resp.statusCode ++
              "; JSON response body malformed (" ++ e ++ ")")))) := by
  constructor
  · intro ae hae
    simp [searchRespond, hsc, hjson, hae]
  · intro e he
    simp [searchRespond, hsc, hjson, he]

/-- C5 witness: status 404 with JSON body carrying message `not found`
yields an `APIError` with that message, and the metadata records status
404. -/
theorem c5_witness :
    searchRespond "https://search.example/search"
        ⟨404, [("Content-Type", ["application/json"])],
          some (.obj [("message", .str "not found")])⟩ =
      (⟨0, [],
          ⟨404, [("Content-Type", ["application/json"])],
            "https://search.example/search"⟩⟩,
        some (.apiError ⟨"not found"⟩)) :=
  (c5_structured_error "https://search.example/search"
      ⟨404, [("Content-Type", ["application/json"])],
        some (.obj [("message", .str "not found")])⟩
      (by decide) rfl).1 ⟨"not found"⟩ rfl

end SearchGo

namespace SearchGo

/-- C1 counterexample: a 200 JSON response whose second hit fails to decode.
`makeResponse` assembles the first hit and the total count alongside the
error, but `Search` returns a response with no hits and a zero total — only
the metadata — so the value returned to the caller of `Search` does not
contain the previously decoded work. -/
theorem c1_counterexample :
    searchRespond "https://search.example/search"
        ⟨200, [("Content-Type", ["application/json"])],
          envelopeBody 2
            [.obj [("type", .str "series"), ("id", .str "s2")],
              .obj [("type", .str "")]]⟩ =
      (⟨0, [],
          ⟨200, [("Content-Type", ["application/json"])],
            "https://search.example/search"⟩⟩,
        some .typeMissing)
    ∧ makeResponse
        ⟨200, [("Content-Type", ["application/json"])],
          "https://search.example/search"⟩
        (envelopeBody 2
          [.obj [("type", .str "series"), ("id", .str "s2")],
            .obj [("type", .str "")]]) =
      (⟨2, [.series ⟨"s2", "series"⟩],
          ⟨200, [("Content-Type", ["application/json"])],
            "https://search.example/search"⟩⟩,
        some .typeMissing) :=
  ⟨rfl, rfl⟩

/-- C1 amended: when the hit array of a success-classified body fails to
decode at some element, `makeResponse` returns the hits decoded before that
element together with the decoded total-hit count alongside the error, but
`Search` discards that partial value and returns to its caller a response
holding only the metadata (zero hits, zero total) together with the same
error. -/
theorem c1_partial_results_amended :
    (∀ (meta : Meta) (total : Int) (pre : List Json) (preHits : List Hit)
        (bad : Json) (rest : List Json) (e : GoError),
        List.Forall₂ (fun g hh => decodeOneHit g = Except.ok hh) pre preHits →
        decodeOneHit bad = .error e →
        makeResponse meta (envelopeBody total (pre ++ bad :: rest)) =
          (⟨total, preHits, meta⟩, some e))
    ∧ (∀ (reqURL : String) (resp : HTTPResponse) (r : Response) (e : GoError),
        resp.statusCode = 200 → isJSONResponse resp = true →
        makeResponse (metaOf reqURL resp) resp.body = (r, some e) →
        searchRespond reqURL resp = (⟨0, [], metaOf reqURL resp⟩, some e)) := by
  constructor
  · intro meta total pre preHits bad rest e hpre hbad
    simp only [makeResponse, decodeEnvelope_envelopeBody,
      decodeHits_ok_prefix hpre (bad :: rest) [], List.nil_append,
      decodeHits_cons, hbad]
  · intro reqURL resp r e h200 hjson hmk
    simp [searchRespond, h200, hjson, hmk]

/-- C1 witness: a concrete instance of the amended claim, with one decoded
series hit preserved by `makeResponse` before the failing element. -/
theorem c1_witness :
    makeResponse ⟨200, [], "https://search.example/search"⟩
        (envelopeBody 7
          ([.obj [("type", .str "series"), ("id", .str "s9")]] ++
            Json.obj [("type", .str "")] :: [])) =
      (⟨7, [.series ⟨"s9", "series"⟩],
          ⟨200, [], "https://search.example/search"⟩⟩,
        some .typeMissing) :=
  c1_partial_results_amended.1 ⟨200, [], "https://search.example/search"⟩ 7
    [.obj [("type", .str "series"), ("id", .str "s9")]]
    [.series ⟨"s9", "series"⟩] (.obj [("type", .str "")]) [] .typeMissing
    (List.Forall₂.cons rfl List.Forall₂.nil) rfl

/-- C2: for every raw hit whose discriminator peek yields a non-empty value,
the switch decodes the element into the `Series` shape exactly when the
value is `series`, and into the `Asset` shape for every other non-empty
value. -/
theorem c2_discriminator_dispatch (h : Json) (t : String) (acc : List Hit)
    (rest : List Json) (hpeek : decodeTypeField h = .ok t) (hne : t ≠ "") :
    ((t = "series" → ∀ s, decodeSeries h = .ok s →
        decodeHits (h :: rest) acc = decodeHits rest (acc ++ [.series s]))
     ∧ (t = "series" → ∀ e, decodeSeries h = .error e →
        decodeHits (h :: rest) acc = (acc, some (.jsonError e)))
     ∧ (t ≠ "series" → ∀ a, decodeAsset h = .ok a →
        decodeHits (h :: rest) acc = decodeHits rest (acc ++ [.asset a]))
     ∧ (t ≠ "series" → ∀ e, decodeAsset h = .error e →
        decodeHits (h :: rest) acc = (acc, some (.jsonError e)))) := by
  refine ⟨?_, ?_, ?_, ?_⟩
  · intro hser s hs
    rw [decodeHits_cons]
    simp [decodeOneHit, hpeek, hne, hser, hs]
  · intro hser e hs
    rw [decodeHits_cons]
    simp [decodeOneHit, hpeek, hne, hser, hs]
  · intro hser a ha
    rw [decodeHits_cons]
    simp [decodeOneHit, hpeek, hne, hser, ha]
  · intro hser e ha
    rw [decodeHits_cons]
    simp [decodeOneHit, hpeek, hne, hser, ha]

/-- C2 witness: a raw hit with discriminator `movie` (non-empty, not
`series`) is decoded into the `Asset` shape. -/
theorem c2_witness :
    decodeHits [Json.obj [("type", .str "movie"), ("video_id", .str "a7")]]
        [] =
      decodeHits [] ([] ++ [Hit.asset ⟨"a7", "movie"⟩]) :=
  (c2_discriminator_dispatch
      (.obj [("type", .str "movie"), ("video_id", .str "a7")]) "movie" [] []
      rfl (by decide)).2.2.1 (by decide) ⟨"a7", "movie"⟩ rfl

/-- C3: for every hit array with an element whose discriminator is empty or
absent, `makeResponse` aborts at that element with `ErrTypeMissing` and the
result accompanying the error contains exactly the hits decoded before that
element, together with the decoded total-hit count. -/
theorem c3_missing_discriminator_partial (meta : Meta) (total : Int)
    (pre : List Json) (preHits : List Hit) (bad : Json) (rest : List Json)
    (hpre : List.Forall₂ (fun g hh => decodeOneHit g = Except.ok hh) pre
      preHits)
    (hbad : decodeTypeField bad = .ok "") :
    makeResponse meta (envelopeBody total (pre ++ bad :: rest)) =
      (⟨total, preHits, meta⟩, some .typeMissing) := by
  have hone : decodeOneHit bad = .error .typeMissing := by
    simp [decodeOneHit, hbad]
  simp only [makeResponse, decodeEnvelope_envelopeBody,
    decodeHits_ok_prefix hpre (bad :: rest) [], List.nil_append,
    decodeHits_cons, hone]

/-- C3 witness: an asset hit decoded before an element with an absent
`type` field is present in the result accompanying `ErrTypeMissing`. -/
theorem c3_witness :
    makeResponse ⟨200, [], "https://search.example/search"⟩
        (envelopeBody 3
          ([.obj [("type", .str "clip"), ("video_id", .str "v1")]] ++
            Json.obj [("id", .str "x")] :: [])) =
      (⟨3, [.asset ⟨"v1", "clip"⟩],
          ⟨200, [], "https://search.example/search"⟩⟩,
        some .typeMissing) :=
  c3_missing_discriminator_partial ⟨200, [], "https://search.example/search"⟩
    3 [.obj [("type", .str "clip"), ("video_id", .str "v1")]]
    [.asset ⟨"v1", "clip"⟩] (.obj [("id", .str "x")]) []
    (List.Forall₂.cons rfl List.Forall₂.nil) rfl

/-- C8: decoding is order-preserving — on success, hit `i` of the output is
the decode of element `i` of the input array — and the example body with
total 2, a series hit `s1` and a movie hit `a1` decodes to that total, a
`Series` with ID `s1` at index 0, and an `Asset` with VideoID `a1` at index
1. -/
theorem c8_order_preserving :
    (∀ (raw : List Json) (hits : List Hit),
        decodeHits raw [] = (hits, none) →
        List.Forall₂ (fun g hh => decodeOneHit g = Except.ok hh) raw hits)
    ∧ (∀ meta : Meta,
        makeResponse meta
            (envelopeBody 2
              [.obj [("type", .str "series"), ("id", .str "s1")],
                .obj [("type", .str "movie"), ("video_id", .str "a1")]]) =
          (⟨2, [.series ⟨"s1", "series"⟩, .asset ⟨"a1", "movie"⟩], meta⟩,
            none)) := by
  constructor
  · intro raw hits h
    obtain ⟨tl, htl, hf⟩ := decodeHits_ok_forall₂ raw [] hits h
    rw [List.nil_append] at htl
    exact htl ▸ hf
  · intro meta
    rfl

/-- C8 witness: the general order-preservation statement applied to the
example array relates each input element to the hit at the same index. -/
theorem c8_witness :
    List.Forall₂ (fun g hh => decodeOneHit g = Except.ok hh)
      [Json.obj [("type", .str "series"), ("id", .str "s1")],
        Json.obj [("type", .str "movie"), ("video_id", .str "a1")]]
      [.series ⟨"s1", "series"⟩, .asset ⟨"a1", "movie"⟩] :=
  c8_order_preserving.1
    [.obj [("type", .str "series"), ("id", .str "s1")],
      .obj [("type", .str "movie"), ("video_id", .str "a1")]]
    [.series ⟨"s1", "series"⟩, .asset ⟨"a1", "movie"⟩] rfl

end SearchGo

namespace SearchGo

/-- C7: when the `fields` query parameter is present and non-empty and its
comma-separated entries lack `type`, the normalizer appends `type` exactly
once (and touches no other parameter); when `type` is already among the
entries, or the parameter is empty or absent, the query is left exactly
equal to the input. -/
theorem c7_fields_normalization (q : Values) :
    (Values.get q "fields" = "" → ensureCorrectFieldsParam q = q)
    ∧ (Values.get q "fields" ≠ "" →
        (splitComma (Values.get q "fields")).contains "type" = true →
        ensureCorrectFieldsParam q = q)
    ∧ (Values.get q "fields" ≠ "" →
        (splitComma (Values.get q "fields")).contains "type" = false →
        Values.get (ensureCorrectFieldsParam q) "fields" =
            Values.get q "fields" ++ ",type"
          ∧ (splitComma (Values.get (ensureCorrectFieldsParam q)
              "fields")).count "type" = 1
          ∧ ∀ k, k ≠ "fields" →
              Values.lookup (ensureCorrectFieldsParam q) k =
                Values.lookup q k) := by
  refine ⟨?_, ?_, ?_⟩
  · intro h1
    simp [ensureCorrectFieldsParam, h1]
  · intro h1 h2
    have h2' : "type" ∈ splitComma (Values.get q "fields") := by
      simpa using h2
    simp [ensureCorrectFieldsParam, h1, h2']
  · intro h1 h2
    have h2' : "type" ∉ splitComma (Values.get q "fields") := by
      simpa using h2
    have hens : ensureCorrectFieldsParam q =
        Values.set q "fields" (Values.get q "fields" ++ ",type") := by
      simp [ensureCorrectFieldsParam, h1, h2']
    have hget : Values.get (ensureCorrectFieldsParam q) "fields" =
        Values.get q "fields" ++ ",type" := by
      rw [hens, values_get_set_self]
    refine ⟨hget, ?_, ?_⟩
    · rw [hget, splitComma_append_type, List.count_append]
      have hmem : "type" ∉ splitComma (Values.get q "fields") := by
        simpa using h2
      simp [List.count_eq_zero.mpr hmem]
    · intro k hk
      rw [hens]
      exact values_lookup_set_ne q "fields" _ k hk

/-- C7 witness: a query whose `fields` value is `title` gains exactly the
suffix `,type`. -/
theorem c7_witness :
    Values.get (ensureCorrectFieldsParam [("fields", ["title"])]) "fields" =
      "title" ++ ",type" :=
  ((c7_fields_normalization [("fields", ["title"])]).2.2 (by decide)
    (by decide)).1

/-- C9: a content-type value classifies as JSON exactly when its media-type
token — the text before any `;`, stripped of surrounding whitespace —
equals `application/json` case-sensitively; absence of a content-type value
is not JSON; and the repository's own test vectors classify accordingly. -/
theorem c9_content_type_classification :
    (∀ ct : String, isJSONContentType ct = true ↔
        mediaToken ct = "application/json")
    ∧ (∀ (sc : Nat) (hdr : List (String × List String)) (body : Option Json),
        headerGet hdr "Content-Type" = none →
        isJSONResponse ⟨sc, hdr, body⟩ = false)
    ∧ isJSONContentType "application/json; charset=utf-8" = true
    ∧ isJSONContentType "application/json; charset=iso-8859-1" = true
    ∧ isJSONContentType "application/json" = true
    ∧ isJSONContentType "text/plain" = false
    ∧ isJSONContentType "randomnoiseapplication/jsonrandomnoise" = false := by
  refine ⟨?_, ?_, by decide, by decide, by decide, by decide, by decide⟩
  · intro ct
    simp [isJSONContentType]
  · intro sc hdr body h
    simp [isJSONResponse, h]

/-- C9 witness: a response whose header carries no content-type value is
classified as not-JSON. -/
theorem c9_witness :
    isJSONResponse ⟨200, [("X-Other", ["1"])], none⟩ = false :=
  c9_content_type_classification.2.1 200 [("X-Other", ["1"])] none rfl

/-- C10: for a non-nil query and a client with a non-empty application name,
building the search request sets the `client` parameter to the application
name (overwriting any caller-supplied value) and modifies no parameter other
than `fields` and `client`. -/
theorem c10_client_param (q : Values) (appName : String)
    (happ : appName ≠ "") :
    Values.get (newSearchRequestQuery appName q) "client" = appName
    ∧ ∀ k, k ≠ "fields" → k ≠ "client" →
        Values.lookup (newSearchRequestQuery appName q) k =
          Values.lookup q k := by
  have hdef : newSearchRequestQuery appName q =
      Values.set (ensureCorrectFieldsParam q) "client" appName := by
    simp [newSearchRequestQuery, happ]
  constructor
  · rw [hdef, values_get_set_self]
  · intro k hkf hkc
    rw [hdef, values_lookup_set_ne _ "client" _ k hkc,
      ensureCorrectFieldsParam_lookup_ne q k hkf]

/-- C10 witness: with application name `myapp`, a caller-supplied `client`
value is overwritten and an unrelated parameter `q` is untouched. -/
theorem c10_witness :
    Values.get
        (newSearchRequestQuery "myapp"
          [("q", ["news"]), ("client", ["caller"]), ("fields", ["title"])])
        "client" = "myapp"
    ∧ Values.lookup
        (newSearchRequestQuery "myapp"
          [("q", ["news"]), ("client", ["caller"]), ("fields", ["title"])])
        "q" =
      Values.lookup
        [("q", ["news"]), ("client", ["caller"]), ("fields", ["title"])]
        "q" :=
  ⟨(c10_client_param
      [("q", ["news"]), ("client", ["caller"]), ("fields", ["title"])]
      "myapp" (by decide)).1,
    (c10_client_param
      [("q", ["news"]), ("client", ["caller"]), ("fields", ["title"])]
      "myapp" (by decide)).2 "q" (by decide) (by decide)⟩

end SearchGo
